import Mathlib

/-!
Shallow embedding of the `pint` parser-combinator library
(`src/pint/__init__.py`, `src/pint/parser.py`, `src/pint/primitives.py`,
`src/pint/errors.py`) and proofs about its specification.

Modelling conventions:
* A Python token sequence is a `List α`; slices (such as the output of
  `InputStream.take`) are again `List α`.
* Python exceptions that escape a call are modelled with `Except PyExc`;
  a normally returned parse outcome is `Except.ok` of a `PResult`.
* The library has two unrelated classes named `Error`:
  `pint.Error` (defined in `__init__.py`, message only) and
  `pint.errors.Error`, the base class of `CustomError` / `UnexpectedError`.
  `parser.py` imports the former, so its `isinstance(result, Error)` checks
  recognise only the message-only class.  `PResult` keeps the four runtime
  shapes apart: `Result` (the NamedTuple), `Error` (pint.Error),
  `CustomError` and `UnexpectedError` (from `pint.errors`); attribute
  access on a shape that lacks the attribute is an `attributeError`.
* `Parser.repeat` contains a Python `while True` loop; the embedding gives
  the loop an explicit fuel argument, and exhausting the fuel yields the
  marker `PyExc.fuelExhausted` (the Python loop diverges exactly when every
  fuel amount is exhausted).
-/

namespace Pint

/-- Python exceptions (and the fuel marker for the embedded `while` loop). -/
inductive PyExc where
  | indexError (message : String)
  | valueError (message : String)
  | attributeError (missing : String)
  | fuelExhausted
deriving DecidableEq

/-- Span from `errors.py`: `start` and `end` positions of an item. -/
structure Span where
  start : Nat
  stop : Nat
deriving DecidableEq

/-- InputStream from `__init__.py`: a wrapped sequence and a position. -/
structure InputStream (α : Type) where
  stream : List α
  position : Nat
deriving DecidableEq

/-- InputStream.take from `__init__.py`: returns the first `amount` tokens and
a new stream advanced past them; raises IndexError when `amount` exceeds the
length of the wrapped stream. -/
def InputStream.take (s : InputStream α) (amount : Nat) :
    Except PyExc (List α × InputStream α) :=
  if amount > s.stream.length then
    .error (.indexError "Amount out of range.")
  else
    let taken := s.stream.take amount
    .ok (taken, ⟨s.stream.drop amount, s.position + taken.length⟩)

/-- InputStream.index from `__init__.py`: lowest index of `pattern` in the
wrapped stream; raises ValueError when absent. -/
def InputStream.index [BEq α] (s : InputStream α) (pattern : α) :
    Except PyExc Nat :=
  match s.stream.findIdx? (· == pattern) with
  | some i => .ok i
  | none => .error (.valueError "substring not found")

/-- The value a parsing function returns in Python: either the `Result`
NamedTuple, a message-only `pint.Error`, or one of the `pint.errors` classes
the primitives raise (`CustomError`, `UnexpectedError`).  Only the `Error`
shape is an instance of the `Error` class that `parser.py` imports. -/
inductive PResult (α β : Type) where
  | Result (input : InputStream α) (output : β)
  | Error (message : String)
  | CustomError (message : String) (span : Span) (label : Option String)
  | UnexpectedError (found : List α) (span : Span) (label : Option String)
deriving DecidableEq

/-- Parser from `parser.py`: wraps a parsing function. -/
structure Parser (α β : Type) where
  parser_fn : InputStream α → Except PyExc (PResult α β)

/-- The argument of `Parser.parse` in Python: either an `InputStream` or a
raw sequence (anything that is not an `InputStream`). -/
inductive ParseInput (α : Type) where
  | stream (s : InputStream α)
  | raw (xs : List α)

/-- Parser.parse from `parser.py`: a raw sequence is first wrapped in a fresh
`InputStream` (at the default position 0), then the wrapped function runs. -/
def Parser.parse (p : Parser α β) : ParseInput α → Except PyExc (PResult α β)
  | .stream s => p.parser_fn s
  | .raw xs => p.parser_fn ⟨xs, 0⟩

/-- Parser.bind from `parser.py`.  The `isinstance(result, Error)` test only
recognises the message-only `pint.Error`; on a `CustomError` or
`UnexpectedError` the subsequent `result.output` attribute access raises
AttributeError. -/
def Parser.bind (p : Parser α β) (binder : β → Parser α γ) : Parser α γ :=
  ⟨fun inp =>
    match p.parse (.stream inp) with
    | .error e => .error e
    | .ok (.Error m) => .ok (.Error m)
    | .ok (.Result rest out) => (binder out).parse (.stream rest)
    | .ok (.CustomError ..) => .error (.attributeError "output")
    | .ok (.UnexpectedError ..) => .error (.attributeError "output")⟩

/-- Parser.map from `parser.py`, defined through `bind` exactly as in the
source. -/
def Parser.map (p : Parser α β) (map_fn : β → γ) : Parser α γ :=
  p.bind (fun res => ⟨fun inp => .ok (.Result inp (map_fn res))⟩)

/-- Message built by `Parser.alt` when both branches fail with recognised
errors; the Python f-string contains an escaped newline, so the continuation
line's 20-space indentation is part of the string. -/
def altMessage (m1 m2 : String) : String :=
  "Both parsers returned an error.                     First parser: "
    ++ m1 ++ "; Second parser: " ++ m2

/-- The `.message` attribute of a parse outcome: present on `pint.Error` and
`CustomError`, absent on the `Result` NamedTuple and on `UnexpectedError`. -/
def PResult.message : PResult α β → Option String
  | .Error m => some m
  | .CustomError m _ _ => some m
  | .Result _ _ => none
  | .UnexpectedError .. => none

/-- Parser.alt from `parser.py`: if `self` returns a `Result` it is returned
as is; otherwise `other` runs on the same input.  Only when `other`'s outcome
is a message-only `pint.Error` are the messages combined (reading
`result.message`, which raises AttributeError on `UnexpectedError`); any
other failing outcome of `other` is returned unchanged. -/
def Parser.alt (p other : Parser α β) : Parser α β :=
  ⟨fun inp =>
    match p.parse (.stream inp) with
    | .error e => .error e
    | .ok (.Result rest out) => .ok (.Result rest out)
    | .ok r =>
      match other.parse (.stream inp) with
      | .error e => .error e
      | .ok (.Error m2) =>
        match r.message with
        | some m1 => .ok (.Error (altMessage m1 m2))
        | none => .error (.attributeError "message")
      | .ok other_result => .ok other_result⟩

/-- Truthiness of the Python value `maximum : Optional[int]`: `None` and `0`
are falsy. -/
def pyTruthy : Option Nat → Bool
  | none => false
  | some n => n != 0

/-- The `while True` loop of `Parser.repeat`, with explicit fuel.  A loop
iteration breaks on a recognised `pint.Error`, raises AttributeError from
`results.append(result.output)` on a typed error, and otherwise collects the
output, advances, and stops once `maximum` is truthy and reached. -/
def Parser.repeatGo (p : Parser α β) (maximum : Option Nat) :
    Nat → InputStream α → List β → Except PyExc (InputStream α × List β)
  | 0, _, _ => .error .fuelExhausted
  | fuel + 1, inp, results =>
    match p.parse (.stream inp) with
    | .error e => .error e
    | .ok (.Error _) => .ok (inp, results)
    | .ok (.CustomError ..) => .error (.attributeError "output")
    | .ok (.UnexpectedError ..) => .error (.attributeError "output")
    | .ok (.Result rest out) =>
      let results' := results ++ [out]
      if pyTruthy maximum && results'.length == maximum.getD 0 then
        .ok (rest, results')
      else
        Parser.repeatGo p maximum fuel rest results'

/-- Parser.repeat from `parser.py` (fuel made explicit): run the loop, then
return `Error "Expected input."` when fewer than `minimum` values were
collected, else a `Result` with the collected list and the stream after the
last successful parse. -/
def Parser.repeat (p : Parser α β) (minimum : Nat) (maximum : Option Nat)
    (fuel : Nat) : Parser α (List β) :=
  ⟨fun inp =>
    match Parser.repeatGo p maximum fuel inp [] with
    | .error e => .error e
    | .ok (inp', results) =>
      if results.length < minimum then .ok (.Error "Expected input.")
      else .ok (.Result inp' results)⟩

/-- Parser.optional from `parser.py`: `Result(inp, None)` only when the
outcome is an instance of the message-only `pint.Error`; every other outcome
(including `CustomError` and `UnexpectedError`) is returned unchanged.
Python's `Optional[Output]` is modelled as `Option β`, so the success
pass-through wraps the value in `some`. -/
def Parser.optional (p : Parser α β) : Parser α (Option β) :=
  ⟨fun inp =>
    match p.parse (.stream inp) with
    | .error e => .error e
    | .ok (.Error _) => .ok (.Result inp none)
    | .ok (.Result rest out) => .ok (.Result rest (some out))
    | .ok (.CustomError m sp l) => .ok (.CustomError m sp l)
    | .ok (.UnexpectedError f sp l) => .ok (.UnexpectedError f sp l)⟩

/-- result from `primitives.py`: succeed with `value`, consuming nothing. -/
def result (value : β) : Parser α β :=
  ⟨fun inp => .ok (.Result inp value)⟩

/-- zero from `primitives.py`: always fail with a `CustomError`. -/
def zero : Parser α β :=
  ⟨fun inp =>
    .ok (.CustomError "Zero parser." ⟨inp.position, inp.position + 1⟩ (some "zero"))⟩

/-- fail from `primitives.py`: always fail with a `CustomError` carrying the
given message. -/
def fail (message : String) : Parser α β :=
  ⟨fun inp =>
    .ok (.CustomError message ⟨inp.position, inp.position + 1⟩ (some "fail"))⟩

/-- unexpected from `primitives.py`: always fail with an `UnexpectedError`;
the span defaults to the one-past range at the current position. -/
def unexpected (found : List α) (span : Option Span) (label : Option String) :
    Parser α β :=
  ⟨fun inp =>
    let err_span := span.getD ⟨inp.position, inp.position + 1⟩
    .ok (.UnexpectedError found err_span label)⟩

/-- take_any from `primitives.py`: take one token; an IndexError from the
stream is caught and converted into a `CustomError`. -/
def take_any : Parser α (List α) :=
  ⟨fun inp =>
    match inp.take 1 with
    | .ok (taken, remaining) => .ok (.Result remaining taken)
    | .error (.indexError _) =>
      .ok (.CustomError "Expected something, but found end of input."
        ⟨inp.position, inp.position + 1⟩ (some "take_any"))
    | .error e => .error e⟩

/-- take from `primitives.py`: take `amount` tokens.  Unlike `take_any`, the
stream's IndexError is NOT caught here and escapes to the caller. -/
def take (amount : Nat) : Parser α (List α) :=
  ⟨fun inp =>
    match inp.take amount with
    | .ok (taken, remaining) => .ok (.Result remaining taken)
    | .error e => .error e⟩

/-- Python's `c in values` membership test on sequences, as used by `one_of`
and `none_of`: for strings it is the contiguous-substring test, which for the
singleton slices `take_any` produces coincides with membership of the token
in `values`. -/
def pyIn [DecidableEq α] (c values : List α) : Bool :=
  decide (c <:+: values)

/-- just from `primitives.py`: one token, accepted when the taken slice
equals `expected`. -/
def just [DecidableEq α] (expected : List α) : Parser α (List α) :=
  take_any.bind (fun c =>
    if c = expected then result c else unexpected c none (some "just"))

/-- one_of from `primitives.py`: one token, accepted when the taken slice is
contained in `values`, via the membership model `pyIn`. -/
def one_of [DecidableEq α] (values : List α) : Parser α (List α) :=
  take_any.bind (fun c =>
    if pyIn c values then result c else unexpected c none (some "one_of"))

/-- none_of from `primitives.py`: one token, accepted when the taken slice is
NOT contained in `values`, via the membership model `pyIn`. -/
def none_of [DecidableEq α] (values : List α) : Parser α (List α) :=
  take_any.bind (fun c =>
    if pyIn c values then unexpected c none (some "none_of") else result c)

/-- satisfy from `primitives.py`: one token, accepted when the predicate
holds of the taken slice. -/
def satisfy [DecidableEq α] (pred : List α → Bool) : Parser α (List α) :=
  take_any.bind (fun c =>
    if pred c then result c else unexpected c none (some "satisfy"))

/-- take_until from `primitives.py`: find the first occurrence of `pattern`
and take everything before it; a ValueError from `index` is caught and
converted into a `CustomError`. -/
def take_until [BEq α] [ToString α] (pattern : α) : Parser α (List α) :=
  ⟨fun inp =>
    match inp.index pattern with
    | .ok location => (take location).parse (.stream inp)
    | .error (.valueError _) =>
      .ok (.CustomError ("Pattern " ++ toString pattern ++ " not in input.")
        ⟨inp.position, inp.position + 1⟩ (some "take_until"))
    | .error e => .error e⟩

/-- Closed syntax of parsers built from the primitives of `primitives.py`
and the combinators of `parser.py`.  The combinators the source derives from
`bind` (`map`, `then`, `then_ignore`, `ignore_then`, `delimited`, `fold`,
`padded`, `collect_str`, and the token primitives `just`, `one_of`,
`none_of`, `satisfy`) are representable as `bind` trees exactly as the
source defines them, so they are covered by the `bind` constructor. -/
inductive Grammar (α : Type) : Type → Type 1 where
  | result {β : Type} (value : β) : Grammar α β
  | zero {β : Type} : Grammar α β
  | fail {β : Type} (message : String) : Grammar α β
  | unexpected {β : Type} (found : List α) (span : Option Span)
      (label : Option String) : Grammar α β
  | take_any : Grammar α (List α)
  | take (amount : Nat) : Grammar α (List α)
  | take_until (pattern : α) : Grammar α (List α)
  | bind {β γ : Type} (p : Grammar α β) (binder : β → Grammar α γ) : Grammar α γ
  | alt {β : Type} (p other : Grammar α β) : Grammar α β
  | repeatC {β : Type} (p : Grammar α β) (minimum : Nat) (maximum : Option Nat) :
      Grammar α (List β)
  | optional {β : Type} (p : Grammar α β) : Grammar α (Option β)

/-- Interpretation of the closed syntax by the embedded library, node for
node (`repeatC` is Python's `repeat`; `fuel` feeds each embedded `repeat`
loop). -/
def denote [DecidableEq α] [ToString α] (fuel : Nat) :
    Grammar α β → Parser α β
  | .result v => result v
  | .zero => zero
  | .fail m => fail m
  | .unexpected f sp l => unexpected f sp l
  | .take_any => take_any
  | .take n => take n
  | .take_until pat => take_until pat
  | .bind g k => (denote fuel g).bind (fun v => denote fuel (k v))
  | .alt g h => (denote fuel g).alt (denote fuel h)
  | .repeatC g m M => (denote fuel g).repeat m M fuel
  | .optional g => (denote fuel g).optional

/-- A parser never moves backward: every `Result` it returns carries a
remaining stream whose position is at least the input's position. -/
def Monotone (p : Parser α β) : Prop :=
  ∀ s rest out, p.parse (.stream s) = Except.ok (.Result rest out) →
    s.position ≤ rest.position

@[simp]
theorem Parser.parse_stream (p : Parser α β) (s : InputStream α) :
    p.parse (.stream s) = p.parser_fn s := rfl

/-- A successful stream-level `take` of `n` tokens advances the position by
exactly `n`. -/
theorem take_ok_position {s : InputStream α} {n : Nat} {taken : List α}
    {r : InputStream α} (h : s.take n = .ok (taken, r)) :
    r.position = s.position + n := by
  rw [InputStream.take] at h
  split at h
  · exact absurd h (by simp)
  next hgt =>
    simp only [Except.ok.injEq, Prod.mk.injEq] at h
    obtain ⟨-, h2⟩ := h
    rw [← h2]
    simp only [List.length_take]
    omega

theorem mono_result (v : β) : Monotone (result (α := α) v) := by
  intro s rest out h
  cases h
  exact Nat.le_refl _

theorem mono_zero : Monotone (zero : Parser α β) := by
  intro s rest out h
  simp [zero] at h

theorem mono_fail (m : String) : Monotone (fail (α := α) (β := β) m) := by
  intro s rest out h
  simp [fail] at h

theorem mono_unexpected (f : List α) (sp : Option Span) (l : Option String) :
    Monotone (unexpected (β := β) f sp l) := by
  intro s rest out h
  simp [unexpected] at h

theorem mono_take_any : Monotone (take_any : Parser α (List α)) := by
  intro s rest out h
  simp only [take_any, Parser.parse_stream] at h
  split at h
  next taken remaining heq =>
    cases h
    have := take_ok_position heq
    omega
  · simp at h
  · simp at h

theorem mono_take (n : Nat) : Monotone (take (α := α) n) := by
  intro s rest out h
  simp only [take, Parser.parse_stream] at h
  split at h
  next taken remaining heq =>
    cases h
    have := take_ok_position heq
    omega
  · simp at h

theorem mono_take_until [DecidableEq α] [ToString α] (pat : α) :
    Monotone (take_until pat : Parser α (List α)) := by
  intro s rest out h
  simp only [take_until, Parser.parse_stream] at h
  split at h
  next location heq =>
    exact mono_take location s rest out h
  · simp at h
  · simp at h

theorem mono_bind {p : Parser α β} {k : β → Parser α γ}
    (hp : Monotone p) (hk : ∀ v, Monotone (k v)) : Monotone (p.bind k) := by
  intro s rest out h
  simp only [Parser.bind, Parser.parse_stream] at h
  split at h
  · simp at h
  · simp at h
  next rest1 out1 heq =>
    have h1 := hp s rest1 out1 heq
    have h2 := hk out1 rest1 rest out h
    omega
  · simp at h
  · simp at h

theorem mono_alt {p q : Parser α β} (hp : Monotone p) (hq : Monotone q) :
    Monotone (p.alt q) := by
  intro s rest out h
  simp only [Parser.alt, Parser.parse_stream] at h
  split at h
  · simp at h
  next rest1 out1 heq =>
    cases h
    exact hp s rest out heq
  next r hne heq =>
    split at h
    · simp at h
    · split at h
      · simp at h
      · simp at h
    next other_result hne2 heq2 =>
      cases h
      exact hq s rest out heq2

theorem mono_optional {p : Parser α β} (hp : Monotone p) :
    Monotone p.optional := by
  intro s rest out h
  simp only [Parser.optional, Parser.parse_stream] at h
  split at h
  · simp at h
  · cases h
    exact Nat.le_refl _
  next rest1 out1 heq =>
    cases h
    exact hp s rest out1 heq
  · simp at h
  · simp at h

theorem mono_repeatGo {p : Parser α β} (hp : Monotone p) :
    ∀ (fuel : Nat) (M : Option Nat) (inp : InputStream α) (acc : List β)
      (inp' : InputStream α) (res : List β),
      Parser.repeatGo p M fuel inp acc = .ok (inp', res) →
      inp.position ≤ inp'.position := by
  intro fuel
  induction fuel with
  | zero =>
    intro M inp acc inp' res h
    simp [Parser.repeatGo] at h
  | succ n ih =>
    intro M inp acc inp' res h
    simp only [Parser.repeatGo, Parser.parse_stream] at h
    split at h
    · simp at h
    · cases h
      exact Nat.le_refl _
    · simp at h
    · simp at h
    next rest out heq =>
      have hstep : inp.position ≤ rest.position := hp inp rest out heq
      split at h
      · cases h
        exact hstep
      · have := ih M rest _ inp' res h
        omega

theorem mono_repeat {p : Parser α β} (hp : Monotone p) (m : Nat)
    (M : Option Nat) (fuel : Nat) : Monotone (p.repeat m M fuel) := by
  intro s rest out h
  simp only [Parser.repeat, Parser.parse_stream] at h
  split at h
  · simp at h
  next inp' results heq =>
    split at h
    · simp at h
    · cases h
      exact mono_repeatGo hp fuel M s [] rest out heq

theorem denote_mono [DecidableEq α] [ToString α] :
    ∀ {β : Type} (g : Grammar α β) (fuel : Nat), Monotone (denote fuel g) := by
  intro β g
  induction g with
  | result v => intro fuel; exact mono_result v
  | zero => intro fuel; exact mono_zero
  | fail m => intro fuel; exact mono_fail m
  | unexpected f sp l => intro fuel; exact mono_unexpected f sp l
  | take_any => intro fuel; exact mono_take_any
  | take n => intro fuel; exact mono_take n
  | take_until pat => intro fuel; exact mono_take_until pat
  | bind g k ihg ihk =>
    intro fuel
    exact mono_bind (ihg fuel) (fun v => ihk v fuel)
  | alt g h ihg ihh => intro fuel; exact mono_alt (ihg fuel) (ihh fuel)
  | repeatC g m M ihg => intro fuel; exact mono_repeat (ihg fuel) m M fuel
  | optional g ihg => intro fuel; exact mono_optional (ihg fuel)

/-- A non-empty stream yields its head (as a singleton slice) to `take_any`,
advancing the position by one. -/
theorem take_any_cons (x : α) (rest : List α) (pos : Nat) :
    (take_any : Parser α (List α)).parser_fn ⟨x :: rest, pos⟩
      = .ok (.Result ⟨rest, pos + 1⟩ [x]) := by
  simp only [take_any, InputStream.take]
  rw [if_neg (by simp)]
  rfl

/-- Claim C1 (code slip, concrete evaluation): `bind` does not return a
typed failure of the first parser unchanged.  `zero` fails with a
`CustomError`, which `bind`'s `isinstance(result, Error)` check (against the
message-only `pint.Error`) does not recognise, so `result.output` raises
AttributeError instead of short-circuiting. -/
theorem C1_bind_raises_on_typed_failure :
    ((zero : Parser Char (List Char)).bind (fun v => result v)).parse
        (.stream ⟨['t', 'e', 's', 't'], 0⟩)
      = .error (.attributeError "output") := rfl

/-- Claim C2 (code slip, concrete evaluation): `take(1)` on an empty stream
does not return a Failure — the stream's IndexError escapes uncaught. -/
theorem C2_take_raises_index_error :
    (take 1 : Parser Char (List Char)).parse (.stream ⟨[], 0⟩)
      = .error (.indexError "Amount out of range.") := rfl

/-- Claim C3 (code slip, concrete evaluation): `optional` can return a
Failure.  `just("-")` on "10" fails with an `UnexpectedError`, which
`optional`'s `isinstance(result, Error)` check does not recognise, so the
typed failure is returned instead of `Success(None, s)`. -/
theorem C3_optional_returns_typed_failure :
    ((just ['-']).optional).parse (.stream ⟨['1', '0'], 0⟩)
      = .ok (.UnexpectedError ['1'] ⟨1, 2⟩ (some "just")) := rfl

/-- Claim C4 (code slip, concrete evaluation): when both branches of `alt`
fail with typed errors (here `just("_")` and `one_of("0123456789")` on "@"),
the second branch's `UnexpectedError` is returned alone — it is not an
instance of the message-only `pint.Error`, so no combined message is built
(an `UnexpectedError` has no message at all). -/
theorem C4_alt_drops_first_failure :
    ((just ['_']).alt
        (one_of ['0', '1', '2', '3', '4', '5', '6', '7', '8', '9'])).parse
        (.stream ⟨['@'], 0⟩)
      = .ok (.UnexpectedError ['@'] ⟨1, 2⟩ (some "one_of")) := rfl

/-- Claim C5 (code slip, concrete evaluation): `repeat` does not stop
cleanly at the first inner failure.  On "123", after three successes the
inner `one_of` fails with a typed error at end of input, and AttributeError
is raised instead of returning `Success(["1","2","3"], "")` as the
repository's own `test_repeat` expects. -/
theorem C5_repeat_raises_on_typed_failure :
    ((one_of ['0', '1', '2', '3', '4', '5', '6', '7', '8', '9']).repeat
        0 none 5).parse (.stream ⟨['1', '2', '3'], 0⟩)
      = .error (.attributeError "output") := rfl

/-- Claim C6: whenever `p.parse(s)` succeeds with remaining stream `rest`
and value `v`, `p.map(f).parse(s)` succeeds with the same remaining stream
and value `f(v)`. -/
theorem C6_map_success (p : Parser α β) (f : β → γ) (s rest : InputStream α)
    (v : β) (h : p.parse (.stream s) = .ok (.Result rest v)) :
    (p.map f).parse (.stream s) = .ok (.Result rest (f v)) := by
  simp only [Parser.parse_stream] at h
  simp only [Parser.map, Parser.bind, Parser.parse_stream, h]

/-- Witness for claim C6 at a concrete input. -/
theorem C6_map_success_witness :
    ((result 5 : Parser Char Nat).map (fun n => n + 1)).parse
        (.stream ⟨[], 0⟩) = .ok (.Result ⟨[], 0⟩ 6) :=
  C6_map_success (result 5) (fun n => n + 1) ⟨[], 0⟩ ⟨[], 0⟩ 5 rfl

/-- Claim C7 (counterexample): `just("a")` on the stream "b" (offending
token at position 0) fails with a span starting at 1, not at the token's
position 0. -/
theorem C7_span_counterexample :
    ((just ['a']).parse (.stream ⟨['b'], 0⟩)
        = .ok (.UnexpectedError ['b'] ⟨1, 2⟩ (some "just")))
      ∧ (1 : Nat) ≠ 0 := ⟨rfl, by decide⟩

/-- Claim C7 (amended): for a present-but-rejected next token at position
`pos`, each single-token primitive fails with an `UnexpectedError` whose
span is `(pos + 1, pos + 2)` — one past the mismatched token, because the
token is consumed before `unexpected` reads the stream position. -/
theorem C7_span_one_past :
    ∀ {α : Type} [DecidableEq α] (x : α) (rest : List α) (pos : Nat),
      (∀ expected : List α, [x] ≠ expected →
        (just expected).parse (.stream ⟨x :: rest, pos⟩)
          = .ok (.UnexpectedError [x] ⟨pos + 1, pos + 2⟩ (some "just")))
      ∧ (∀ values : List α, pyIn [x] values = false →
        (one_of values).parse (.stream ⟨x :: rest, pos⟩)
          = .ok (.UnexpectedError [x] ⟨pos + 1, pos + 2⟩ (some "one_of")))
      ∧ (∀ values : List α, pyIn [x] values = true →
        (none_of values).parse (.stream ⟨x :: rest, pos⟩)
          = .ok (.UnexpectedError [x] ⟨pos + 1, pos + 2⟩ (some "none_of")))
      ∧ (∀ pred : List α → Bool, pred [x] = false →
        (satisfy pred).parse (.stream ⟨x :: rest, pos⟩)
          = .ok (.UnexpectedError [x] ⟨pos + 1, pos + 2⟩ (some "satisfy"))) := by
  intro α inst x rest pos
  refine ⟨fun expected ha => ?_, fun values ha => ?_, fun values ha => ?_,
    fun pred ha => ?_⟩
  · simp only [just, Parser.bind, Parser.parse_stream, take_any_cons]
    rw [if_neg ha]
    rfl
  · simp only [one_of, Parser.bind, Parser.parse_stream, take_any_cons, ha,
      Bool.false_eq_true, if_false]
    rfl
  · simp only [none_of, Parser.bind, Parser.parse_stream, take_any_cons, ha,
      if_true]
    rfl
  · simp only [satisfy, Parser.bind, Parser.parse_stream, take_any_cons, ha,
      Bool.false_eq_true, if_false]
    rfl

/-- Witness for the amended claim C7 at concrete inputs. -/
theorem C7_span_one_past_witness :
    ((just ['a']).parse (.stream ⟨['b'], 0⟩)
        = .ok (.UnexpectedError ['b'] ⟨1, 2⟩ (some "just")))
      ∧ ((one_of ['0']).parse (.stream ⟨['b'], 0⟩)
        = .ok (.UnexpectedError ['b'] ⟨1, 2⟩ (some "one_of")))
      ∧ ((none_of ['b']).parse (.stream ⟨['b'], 0⟩)
        = .ok (.UnexpectedError ['b'] ⟨1, 2⟩ (some "none_of")))
      ∧ ((satisfy (fun _ => false)).parse (.stream ⟨['b'], 0⟩)
        = .ok (.UnexpectedError ['b'] ⟨1, 2⟩ (some "satisfy"))) :=
  ⟨(C7_span_one_past 'b' [] 0).1 ['a'] (by decide),
   (C7_span_one_past 'b' [] 0).2.1 ['0'] (by decide),
   (C7_span_one_past 'b' [] 0).2.2.1 ['b'] (by decide),
   (C7_span_one_past 'b' [] 0).2.2.2 (fun _ => false) rfl⟩

/-- Claim C8: (1) every parser built from the primitives and combinators
(closed syntax `Grammar`) that returns a Success leaves the remaining
stream's position at least the input's position; (2) a stream produced by
consuming `k` tokens from a stream at position `q` has position `q + k`. -/
theorem C8_position_invariant :
    (∀ (α : Type) [DecidableEq α] [ToString α] (fuel : Nat)
        {β : Type} (g : Grammar α β) (s rest : InputStream α) (out : β),
        (denote fuel g).parse (.stream s) = Except.ok (.Result rest out) →
        s.position ≤ rest.position)
      ∧ (∀ (α : Type) (s : InputStream α) (k : Nat) (taken : List α)
          (r : InputStream α),
          s.take k = Except.ok (taken, r) → r.position = s.position + k) := by
  constructor
  · intro α _ _ fuel β g s rest out h
    exact denote_mono g fuel s rest out h
  · intro α s k taken r h
    exact take_ok_position h

/-- Witness for claim C8 at a concrete grammar and stream. -/
theorem C8_position_invariant_witness :
    (0 : Nat) ≤ 1 ∧ (1 : Nat) = 0 + 1 :=
  ⟨C8_position_invariant.1 Char 1 Grammar.take_any ⟨['a'], 0⟩ ⟨[], 1⟩ ['a']
      rfl,
   C8_position_invariant.2 Char ⟨['a'], 0⟩ 1 ['a'] ⟨[], 1⟩ rfl⟩

/-- Claim C9: `parse` on a raw sequence wraps it into a fresh `InputStream`
at position 0 and behaves exactly like `parse` on that stream. -/
theorem C9_parse_wraps_raw (p : Parser α β) (xs : List α) :
    p.parse (.raw xs) = p.parse (.stream ⟨xs, 0⟩) := rfl

/-- The repeat loop treats `maximum = 0` exactly like `maximum = None`,
because `0` is falsy in the loop's `if maximum and ...` test. -/
theorem repeatGo_max_zero (p : Parser α β) :
    ∀ (fuel : Nat) (inp : InputStream α) (acc : List β),
      Parser.repeatGo p (some 0) fuel inp acc
        = Parser.repeatGo p none fuel inp acc := by
  intro fuel
  induction fuel with
  | zero => intro inp acc; rfl
  | succ n ih =>
    intro inp acc
    simp only [Parser.repeatGo, Parser.parse_stream]
    cases hp : p.parser_fn inp with
    | error e => rfl
    | ok r =>
      cases r with
      | Result rest out => simp [pyTruthy, ih]
      | Error m => rfl
      | CustomError m sp l => rfl
      | UnexpectedError f sp l => rfl

/-- Claim C10: `repeat(maximum=0)` behaves exactly like `repeat()` with no
maximum, because a maximum of 0 is falsy and so never stops the loop. -/
theorem C10_repeat_max_zero (p : Parser α β) (fuel : Nat) (s : InputStream α) :
    (p.repeat 0 (some 0) fuel).parse (.stream s)
      = (p.repeat 0 none fuel).parse (.stream s) := by
  simp only [Parser.repeat, Parser.parse_stream, repeatGo_max_zero]

end Pint
